import Mathlib

/-!
Shallow embedding of `src/PMSimulatorItem.cpp` (PenaltyMethodPlugin for
Choreonoid).  Real-valued quantities of the C++ code (`double`) are modelled
as rationals so that the arithmetic identities of the controller are exact;
C++ `int` is modelled as `Int`.  Side effects on the external simulation
framework (forward-kinematics recomputation, world integration) are modelled
as explicit event traces, and the mutated objects (controller state, body
state, configuration) as explicit records threaded through the functions.
-/

namespace PMSim

/-- A three-component vector of rationals, modelling `cnoid::Vector3`. -/
structure Vec3 where
  x : ℚ
  y : ℚ
  z : ℚ
deriving DecidableEq, Repr

/-- The zero vector, as produced by `setZero()`. -/
def Vec3.zero : Vec3 := ⟨0, 0, 0⟩

/-- The joint-position sequence `qseqRef` (`cnoid::MultiValueSeq`): an ordered
list of frames, each a vector of per-joint values, plus its frame rate and its
declared part (joint) count. -/
structure MultiValueSeq where
  frames : List (List ℚ)
  frameRate : ℚ
  numParts : ℕ
deriving DecidableEq, Repr

/-- `MultiValueSeq::numFrames()`. -/
def MultiValueSeq.numFrames (q : MultiValueSeq) : ℕ := q.frames.length

/-- `Seq::getTimeStep() = 1 / frameRate()`. -/
def MultiValueSeq.getTimeStep (q : MultiValueSeq) : ℚ := 1 / q.frameRate

/-- `qseqRef->frame(f)[i]`: the value of part `i` at frame `f`.  Out-of-range
access (undefined behaviour in C++) defaults to `0`; the theorems below only
use in-range indices. -/
def MultiValueSeq.frameVal (q : MultiValueSeq) (f : ℤ) (i : ℕ) : ℚ :=
  (q.frames.getD f.toNat []).getD i 0

/-- The mutable per-run state of `HighGainControllerItem`: the members
`currentFrame`, `lastFrame` and `numJoints` set by `start` and advanced by
`control`. -/
structure ControllerState where
  currentFrame : ℤ
  lastFrame : ℤ
  numJoints : ℕ
deriving DecidableEq, Repr

/-- `HighGainControllerItem::control()`:
`if(++currentFrame > lastFrame){ currentFrame = lastFrame; return false; }
return true;` -/
def control (s : ControllerState) : Bool × ControllerState :=
  if s.currentFrame + 1 > s.lastFrame then
    (false, { s with currentFrame := s.lastFrame })
  else
    (true, { s with currentFrame := s.currentFrame + 1 })

/-- The member assignments at the top of `HighGainControllerItem::start`:
`currentFrame = 0; lastFrame = max(0, numFrames - 1);
numJoints = min(body->numJoints(), qseqRef->numParts());` -/
def startInit (qseqRef : MultiValueSeq) (bodyNumJoints : ℕ) : ControllerState :=
  { currentFrame := 0
    lastFrame := max 0 ((qseqRef.numFrames : ℤ) - 1)
    numJoints := min bodyNumJoints qseqRef.numParts }

/-- `HighGainControllerItem::start(Target*)`: after the member assignments it
fails if the motion is empty, fails if
`fabs(frameRate - 1/worldTimeStep) > 1.0e-6`, and otherwise calls `control()`
once (discarding its result) and returns `true`. -/
def start (qseqRef : MultiValueSeq) (bodyNumJoints : ℕ) (worldTimeStep : ℚ) :
    Bool × ControllerState :=
  if qseqRef.numFrames = 0 then
    (false, startInit qseqRef bodyNumJoints)
  else if |qseqRef.frameRate - 1 / worldTimeStep| > 1 / 1000000 then
    (false, startInit qseqRef bodyNumJoints)
  else
    (true, (control (startInit qseqRef bodyNumJoints)).2)

/-- `n` successive calls to `control()` from state `s`: the list of returned
booleans and the final state. -/
def controlRun : ControllerState → ℕ → List Bool × ControllerState
  | s, 0 => ([], s)
  | s, n + 1 =>
    let r := control s
    let rest := controlRun r.2 n
    (r.1 :: rest.1, rest.2)

/-- One driven joint of the body, holding the fields written by `output()`:
`q()`, `dq()` and `ddq()`. -/
structure Joint where
  q : ℚ
  dq : ℚ
  ddq : ℚ
deriving DecidableEq, Repr

/-- The values written into `body->joint(i)` by one iteration of the loop in
`HighGainControllerItem::output()`. -/
def jointTarget (qseqRef : MultiValueSeq) (s : ControllerState) (i : ℕ) : Joint :=
  let prevFrame : ℤ := max (s.currentFrame - 1) 0
  let nextFrame : ℤ := min (s.currentFrame + 1) s.lastFrame
  let dt := qseqRef.getTimeStep
  { q := qseqRef.frameVal s.currentFrame i
    dq := (qseqRef.frameVal nextFrame i - qseqRef.frameVal s.currentFrame i) / dt
    ddq := (qseqRef.frameVal nextFrame i - 2 * qseqRef.frameVal s.currentFrame i
              + qseqRef.frameVal prevFrame i) / (dt * dt) }

/-- The loop `for(i=0; i < numJoints; ++i)` of `output()`, threading the
running joint index: joints with index below `numJoints` receive the computed
target, the rest keep their state. -/
def outputLoop (qseqRef : MultiValueSeq) (s : ControllerState) :
    ℕ → List Joint → List Joint
  | _, [] => []
  | i, j :: rest =>
    (if i < s.numJoints then jointTarget qseqRef s i else j)
      :: outputLoop qseqRef s (i + 1) rest

/-- `HighGainControllerItem::output()` acting on the body's joint list. -/
def output (qseqRef : MultiValueSeq) (s : ControllerState) (joints : List Joint) :
    List Joint :=
  outputLoop qseqRef s 0 joints

/-- The three-way dynamics-mode selection of `PMSimulatorItem`
(`FORWARD_DYNAMICS`, `HG_DYNAMICS`, `KINEMATICS`). -/
inductive DynamicsMode
  | forwardDynamics
  | hgDynamics
  | kinematics
deriving DecidableEq, Repr

/-- The two-way integration-mode selection of `PMSimulatorItem`
(`EULER_INTEGRATION`, `RUNGE_KUTTA_INTEGRATION`). -/
inductive IntegrationMode
  | euler
  | rungeKutta
deriving DecidableEq, Repr

/-- The externally observable actions performed by
`PMSimulatorItem::stepSimulation`, in order.  `calcForwardKinematics` carries
the two boolean arguments (velocity / acceleration update);
`traverseFromSupportFoot` records the `LinkTraverse(supportFoot,true,true)`
based update, with `none` standing for the null `supportFoot` pointer left
when a valid legged body has no feet. -/
inductive StepEvent
  | clearExternalForces
  | calcNextState
  | calcForwardKinematics (bodyIdx : ℕ) (updateVelocity updateAcceleration : Bool)
  | traverseFromSupportFoot (bodyIdx : ℕ) (footIdx : Option ℕ)
deriving DecidableEq, Repr

/-- What `stepSimulation` observes of one active simulation body through
`getLeggedBodyHelper`: `none` when `legged->isValid()` is false, otherwise
the list of the world z-coordinates `footLink(i)->p().z()` of its feet in
enumeration order. -/
structure SimBodyLegInfo where
  legged : Option (List ℚ)
deriving DecidableEq, Repr

/-- The support-foot search loop of `stepSimulation`: running over feet with
index counter `i`, `best` holds the current `supportFoot` (index and height;
`none` models the initial null pointer), replaced whenever
`foot->p().z() < supportFoot->p().z()`. -/
def footLoop (i : ℕ) (best : Option (ℕ × ℚ)) : List ℚ → Option (ℕ × ℚ)
  | [] => best
  | z :: rest =>
    let best' := match best with
      | none => some (i, z)
      | some (j, zj) => if z < zj then some (i, z) else some (j, zj)
    footLoop (i + 1) best' rest

/-- The index of the support foot selected by the loop, if any. -/
def supportFootIdx (feet : List ℚ) : Option ℕ :=
  (footLoop 0 none feet).map Prod.fst

/-- The per-body action of the kinematic-walking branch of `stepSimulation`:
plain forward kinematics when the legged-body helper is invalid, otherwise a
link traversal from the selected support foot. -/
def bodyWalkEvent (idx : ℕ) (b : SimBodyLegInfo) : StepEvent :=
  match b.legged with
  | none => StepEvent.calcForwardKinematics idx true true
  | some feet => StepEvent.traverseFromSupportFoot idx (supportFootIdx feet)

/-- The indexed loop `for(size_t i=0; i < activeSimBodies.size(); ++i)`,
emitting one event per body. -/
def forEachBody (f : ℕ → SimBodyLegInfo → StepEvent) :
    ℕ → List SimBodyLegInfo → List StepEvent
  | _, [] => []
  | i, b :: rest => f i b :: forEachBody f (i + 1) rest

/-- `PMSimulatorItem::stepSimulation`: clear the solver's external forces,
then either integrate (`world.calcNextState()`) for the dynamics modes, or
recompute kinematics per body (walking-aware or not).  Returns the boolean
result paired with the trace of actions. -/
def stepSimulation (dynamicsMode : DynamicsMode) (isKinematicWalkingEnabled : Bool)
    (activeSimBodies : List SimBodyLegInfo) : Bool × List StepEvent :=
  if dynamicsMode ≠ DynamicsMode.kinematics then
    (true, [StepEvent.clearExternalForces, StepEvent.calcNextState])
  else if ¬ isKinematicWalkingEnabled then
    (true, StepEvent.clearExternalForces ::
      forEachBody (fun i _ => StepEvent.calcForwardKinematics i true true) 0 activeSimBodies)
  else
    (true, StepEvent.clearExternalForces :: forEachBody bodyWalkEvent 0 activeSimBodies)

/-- The root-link state zeroed by `addBody`: linear/angular velocity `v`/`w`,
their accelerations `dv`/`dw`, and the spatial-velocity pair `vo`/`dvo`. -/
structure RootLinkState where
  v : Vec3
  dv : Vec3
  w : Vec3
  dw : Vec3
  vo : Vec3
  dvo : Vec3
deriving DecidableEq, Repr

/-- Per-link joint state touched by `addBody`: joint angle `q()`, torque
`u()`, velocity `dq()` and acceleration `ddq()`. -/
structure LinkState where
  q : ℚ
  u : ℚ
  dq : ℚ
  ddq : ℚ
deriving DecidableEq, Repr

/-- The parts of a `DyBody` that `addBody` mutates: root-link state, the
per-link joint states, and the list of accumulated external forces. -/
structure DyBodyState where
  root : RootLinkState
  links : List LinkState
  externalForces : List Vec3
deriving DecidableEq, Repr

/-- The kind of controller attached to a simulation body, as far as the
`dynamic_cast<HighGainControllerItem*>` test in `addBody` can observe it. -/
inductive ControllerKind
  | noController
  | highGainController
  | otherController
deriving DecidableEq, Repr

/-- Actions performed by `addBody` on the external framework. -/
inductive BodyEvent
  | clearExternalForces
  | calcForwardKinematics (updateVelocity updateAcceleration : Bool)
deriving DecidableEq, Repr

/-- `PMSimulatorItemImpl::addBody`: zero the root link's velocity and
acceleration state, zero every link's `u`, `dq`, `ddq`, clear external
forces, recompute forward kinematics, and register the body — with the
high-gain (`ForwardDynamicsCBM`) strategy exactly when the global mode is
`HG_DYNAMICS` or the attached controller is a `HighGainControllerItem`.
Returns the mutated body, the registration flag (`true` = high gain) and the
trace of framework actions. -/
def addBody (dynamicsMode : DynamicsMode) (controller : ControllerKind)
    (body : DyBodyState) : DyBodyState × Bool × List BodyEvent :=
  let rootLink : RootLinkState :=
    { v := Vec3.zero, dv := Vec3.zero, w := Vec3.zero, dw := Vec3.zero
      vo := Vec3.zero, dvo := Vec3.zero }
  let isHighGainMode :=
    (dynamicsMode == DynamicsMode.hgDynamics)
      || (controller == ControllerKind.highGainController)
  let links := body.links.map fun l => { l with u := 0, dq := 0, ddq := 0 }
  let body' : DyBodyState := { root := rootLink, links := links, externalForces := [] }
  (body', isHighGainMode,
    [BodyEvent.clearExternalForces, BodyEvent.calcForwardKinematics true true])

/-- `Selection::selectedSymbol()` for the dynamics mode. -/
def DynamicsMode.selectedSymbol : DynamicsMode → String
  | DynamicsMode.forwardDynamics => "Forward dynamics"
  | DynamicsMode.hgDynamics => "High-gain dynamics"
  | DynamicsMode.kinematics => "Kinematics"

/-- `Selection::select(string)` for the dynamics mode: `none` when the symbol
does not match any entry (in which case the C++ selection is unchanged). -/
def DynamicsMode.ofSymbol (s : String) : Option DynamicsMode :=
  if s = "Forward dynamics" then some DynamicsMode.forwardDynamics
  else if s = "High-gain dynamics" then some DynamicsMode.hgDynamics
  else if s = "Kinematics" then some DynamicsMode.kinematics
  else none

/-- `Selection::selectedSymbol()` for the integration mode. -/
def IntegrationMode.selectedSymbol : IntegrationMode → String
  | IntegrationMode.euler => "Euler"
  | IntegrationMode.rungeKutta => "Runge Kutta"

/-- `Selection::select(string)` for the integration mode. -/
def IntegrationMode.ofSymbol (s : String) : Option IntegrationMode :=
  if s = "Euler" then some IntegrationMode.euler
  else if s = "Runge Kutta" then some IntegrationMode.rungeKutta
  else none

/-- The configuration members of `PMSimulatorItemImpl`.  The
`FloatingNumberString` members are modelled by the decimal string they hold
(their numeric interpretation lives in the external host framework). -/
structure ImplConfig where
  dynamicsMode : DynamicsMode
  integrationMode : IntegrationMode
  gravity : Vec3
  staticFriction : ℚ
  slipFriction : ℚ
  contactCullingDistance : String
  contactCullingDepth : String
  errorCriterion : String
  maxNumIterations : ℤ
  contactCorrectionDepth : String
  contactCorrectionVelocityRatio : String
  epsilon : ℚ
  is2Dmode : Bool
  isKinematicWalkingEnabled : Bool
  penaltyKp : ℚ
  penaltyKv : ℚ
deriving DecidableEq, Repr

/-- The world and constraint-force-solver configuration established by
`PMSimulatorItemImpl::initializeSimulation` (body registration is handled by
`addBody` separately).  String-valued solver parameters record the
`FloatingNumberString` they were configured from. -/
structure WorldConfig where
  integration : IntegrationMode
  gravity : Vec3
  sensorsEnabled : Bool
  timeStep : ℚ
  currentTime : ℚ
  gsErrorCriterion : String
  gsMaxNumIterations : ℤ
  correctionDepth : String
  correctionVelocityRatio : String
  staticFriction : ℚ
  slipFriction : ℚ
  cullingDistance : String
  cullingDepth : String
  restitution : ℚ
  is2Dmode : Bool
  penaltyKp : ℚ
  penaltyKv : ℚ
deriving DecidableEq, Repr

/-- `PMSimulatorItemImpl::initializeSimulation`, restricted to the
configuration it installs on the world and its solver.  The integration-mode
branch of the source is commented out: `world.setEulerMethod()` is called
unconditionally.  `cfs.set2Dmode(true)` is called only when `is2Dmode` is
set, and the solver's 2D mode defaults to off. -/
def initializeSimulation (impl : ImplConfig) (worldTimeStep : ℚ) : WorldConfig :=
  { integration := IntegrationMode.euler
    gravity := impl.gravity
    sensorsEnabled := true
    timeStep := worldTimeStep
    currentTime := 0
    gsErrorCriterion := impl.errorCriterion
    gsMaxNumIterations := impl.maxNumIterations
    correctionDepth := impl.contactCorrectionDepth
    correctionVelocityRatio := impl.contactCorrectionVelocityRatio
    staticFriction := impl.staticFriction
    slipFriction := impl.slipFriction
    cullingDistance := impl.contactCullingDistance
    cullingDepth := impl.contactCullingDepth
    restitution := impl.epsilon
    is2Dmode := impl.is2Dmode
    penaltyKp := impl.penaltyKp
    penaltyKv := impl.penaltyKv }

/-- The flat key-value record written by `PMSimulatorItemImpl::store` and
consumed by `restore`: one optional entry per archive key (a missing field
models an absent key).  Note that `epsilon` (coefficient of restitution) has
no key: `store` never writes it. -/
structure Archive where
  dynamicsMode : Option String
  integrationMode : Option String
  gravity : Option Vec3
  staticFriction : Option ℚ
  slipFriction : Option ℚ
  cullingThresh : Option String
  contactCullingDepth : Option String
  errorCriterion : Option String
  maxNumIterations : Option ℤ
  contactCorrectionDepth : Option String
  contactCorrectionVelocityRatio : Option String
  kinematicWalking : Option Bool
  is2Dmode : Option Bool
  penaltyKp : Option ℚ
  penaltyKv : Option ℚ
deriving DecidableEq, Repr

/-- The archive with every key absent. -/
def Archive.empty : Archive :=
  { dynamicsMode := none, integrationMode := none, gravity := none
    staticFriction := none, slipFriction := none, cullingThresh := none
    contactCullingDepth := none, errorCriterion := none
    maxNumIterations := none, contactCorrectionDepth := none
    contactCorrectionVelocityRatio := none, kinematicWalking := none
    is2Dmode := none, penaltyKp := none, penaltyKv := none }

/-- `PMSimulatorItemImpl::store`: writes every configuration field (the
contact-culling distance under the legacy key `cullingThresh`; the selections
as their selected symbols). -/
def store (c : ImplConfig) : Archive :=
  { dynamicsMode := some c.dynamicsMode.selectedSymbol
    integrationMode := some c.integrationMode.selectedSymbol
    gravity := some c.gravity
    staticFriction := some c.staticFriction
    slipFriction := some c.slipFriction
    cullingThresh := some c.contactCullingDistance
    contactCullingDepth := some c.contactCullingDepth
    errorCriterion := some c.errorCriterion
    maxNumIterations := some c.maxNumIterations
    contactCorrectionDepth := some c.contactCorrectionDepth
    contactCorrectionVelocityRatio := some c.contactCorrectionVelocityRatio
    kinematicWalking := some c.isKinematicWalkingEnabled
    is2Dmode := some c.is2Dmode
    penaltyKp := some c.penaltyKp
    penaltyKv := some c.penaltyKv }

/-- `PMSimulatorItemImpl::restore` applied to the in-memory configuration
`c`: `archive.read(key, member)` leaves the member unchanged when the key is
absent; `archive.get(key, member.string())` yields the current string when
the key is absent; `Selection::select(symbol)` leaves the selection unchanged
when the symbol matches no entry.  `epsilon` is never read. -/
def restore (a : Archive) (c : ImplConfig) : ImplConfig :=
  { dynamicsMode :=
      match a.dynamicsMode with
      | some s => (DynamicsMode.ofSymbol s).getD c.dynamicsMode
      | none => c.dynamicsMode
    integrationMode :=
      match a.integrationMode with
      | some s => (IntegrationMode.ofSymbol s).getD c.integrationMode
      | none => c.integrationMode
    gravity := a.gravity.getD c.gravity
    staticFriction := a.staticFriction.getD c.staticFriction
    slipFriction := a.slipFriction.getD c.slipFriction
    contactCullingDistance := a.cullingThresh.getD c.contactCullingDistance
    contactCullingDepth := a.contactCullingDepth.getD c.contactCullingDepth
    errorCriterion := a.errorCriterion.getD c.errorCriterion
    maxNumIterations := a.maxNumIterations.getD c.maxNumIterations
    contactCorrectionDepth := a.contactCorrectionDepth.getD c.contactCorrectionDepth
    contactCorrectionVelocityRatio :=
      a.contactCorrectionVelocityRatio.getD c.contactCorrectionVelocityRatio
    epsilon := c.epsilon
    is2Dmode := a.is2Dmode.getD c.is2Dmode
    isKinematicWalkingEnabled := a.kinematicWalking.getD c.isKinematicWalkingEnabled
    penaltyKp := a.penaltyKp.getD c.penaltyKp
    penaltyKv := a.penaltyKv.getD c.penaltyKv }

/-! ### Helper lemmas about the controller -/

lemma control_preserves (s : ControllerState) :
    ((control s).2).lastFrame = s.lastFrame ∧ ((control s).2).numJoints = s.numJoints := by
  unfold control
  split <;> exact ⟨rfl, rfl⟩

lemma controlRun_preserves (n : ℕ) :
    ∀ s : ControllerState,
      ((controlRun s n).2).lastFrame = s.lastFrame ∧
      ((controlRun s n).2).numJoints = s.numJoints := by
  induction n with
  | zero => intro s; exact ⟨rfl, rfl⟩
  | succ n ih =>
    intro s
    have h1 := control_preserves s
    have h2 := ih (control s).2
    simp only [controlRun]
    exact ⟨h2.1.trans h1.1, h2.2.trans h1.2⟩

lemma start_success_state (qseqRef : MultiValueSeq) (nb : ℕ) (wts : ℚ)
    (s₀ : ControllerState) (h : start qseqRef nb wts = (true, s₀)) :
    qseqRef.numFrames ≠ 0 ∧ s₀ = (control (startInit qseqRef nb)).2 := by
  unfold start at h
  split at h
  · exact absurd h (by simp)
  · split at h
    · exact absurd h (by simp)
    · rename_i h0 _
      exact ⟨h0, ((Prod.ext_iff.mp h).2).symm⟩

lemma startInit_lastFrame (qseqRef : MultiValueSeq) (nb : ℕ)
    (h0 : qseqRef.numFrames ≠ 0) :
    (startInit qseqRef nb).lastFrame = (qseqRef.numFrames : ℤ) - 1 := by
  have h1 : 1 ≤ (qseqRef.numFrames : ℤ) := by
    have := Nat.one_le_iff_ne_zero.mpr h0
    exact_mod_cast this
  simp only [startInit]
  omega

/-! ### C2 -/

/-- C2: `HighGainControllerItem::start` returns `false` whenever the
reference motion has zero frames, returns `false` whenever the motion frame
rate deviates from the reciprocal of the world time step by more than `1e-6`,
and returns `true` otherwise; with world time step `0.001` it succeeds for a
nonempty 1000 Hz motion and fails for a 500 Hz motion. -/
theorem start_failure_conditions :
    ∀ (qseqRef : MultiValueSeq) (bodyNumJoints : ℕ) (worldTimeStep : ℚ),
      ((qseqRef.numFrames = 0 →
          (start qseqRef bodyNumJoints worldTimeStep).1 = false) ∧
       (|qseqRef.frameRate - 1 / worldTimeStep| > 1 / 1000000 →
          (start qseqRef bodyNumJoints worldTimeStep).1 = false) ∧
       (qseqRef.numFrames ≠ 0 →
          |qseqRef.frameRate - 1 / worldTimeStep| ≤ 1 / 1000000 →
          (start qseqRef bodyNumJoints worldTimeStep).1 = true)) ∧
      (worldTimeStep = 1 / 1000 → qseqRef.numFrames ≠ 0 →
        (qseqRef.frameRate = 1000 →
          (start qseqRef bodyNumJoints worldTimeStep).1 = true) ∧
        (qseqRef.frameRate = 500 →
          (start qseqRef bodyNumJoints worldTimeStep).1 = false)) := by
  intro qseqRef nb wts
  constructor
  · refine ⟨fun h0 => ?_, fun hr => ?_, fun h0 hr => ?_⟩
    · unfold start
      rw [if_pos h0]
    · by_cases h0 : qseqRef.numFrames = 0
      · unfold start
        rw [if_pos h0]
      · unfold start
        rw [if_neg h0, if_pos hr]
    · unfold start
      rw [if_neg h0, if_neg (not_lt.mpr hr)]
  · intro hw h0
    constructor
    · intro hrate
      have hr' : ¬ (|qseqRef.frameRate - 1 / wts| > 1 / 1000000) := by
        rw [hw, hrate]; norm_num
      unfold start
      rw [if_neg h0, if_neg hr']
    · intro hrate
      have hr' : |qseqRef.frameRate - 1 / wts| > 1 / 1000000 := by
        rw [hw, hrate]; norm_num
      unfold start
      rw [if_neg h0, if_pos hr']

/-- Witness for C2: a one-frame motion at 1000 Hz starts successfully against
a world time step of 1/1000. -/
theorem start_failure_conditions_witness :
    (start ⟨[[0]], 1000, 1⟩ 1 (1 / 1000)).1 = true :=
  ((start_failure_conditions ⟨[[0]], 1000, 1⟩ 1 (1 / 1000)).2 rfl
    (by decide)).1 rfl

/-! ### C7 -/

/-- C7: once `control()` has returned `false`, the current frame equals
`lastFrame` and every subsequent `control()` call returns `false` while
leaving the state fixed. -/
theorem control_exhaustion_permanent :
    ∀ (s s' : ControllerState), control s = (false, s') →
      s'.currentFrame = s'.lastFrame ∧
      ∀ n, controlRun s' n = (List.replicate n false, s') := by
  intro s s' h
  unfold control at h
  split at h
  · next hgt =>
    have hs' : s' = { s with currentFrame := s.lastFrame } :=
      ((Prod.mk.injEq _ _ _ _).mp h).2.symm
    have hcf : s'.currentFrame = s'.lastFrame := by rw [hs']
    refine ⟨hcf, ?_⟩
    have hfix : control s' = (false, s') := by
      unfold control
      rw [if_pos (by omega)]
      cases s'
      simp at hcf
      simp [hcf]
    intro n
    induction n with
    | zero => rfl
    | succ n ih => simp [controlRun, hfix, ih, List.replicate_succ]
  · exact absurd h (by simp)

/-- Witness for C7: from the exhausted state `⟨5, 5, 0⟩` three further
`control()` calls all return `false` and leave the state unchanged. -/
theorem control_exhaustion_permanent_witness :
    controlRun ⟨5, 5, 0⟩ 3 = (List.replicate 3 false, ⟨5, 5, 0⟩) :=
  (control_exhaustion_permanent ⟨5, 5, 0⟩ ⟨5, 5, 0⟩ (by decide)).2 3

/-! ### C3 -/

lemma controlRun_to_last (lastF : ℤ) (m : ℕ) :
    ∀ (k : ℕ) (c : ℤ), c + k = lastF →
      (controlRun ⟨c, lastF, m⟩ (k + 1)).1 = List.replicate k true ++ [false] := by
  intro k
  induction k with
  | zero =>
    intro c hc
    have hgt : c + 1 > lastF := by omega
    simp [controlRun, control, hgt]
  | succ k ih =>
    intro c hc
    have hle : ¬ (c + 1 > lastF) := by omega
    have hstep : control ⟨c, lastF, m⟩ = (true, ⟨c + 1, lastF, m⟩) := by
      simp [control, hle]
    have hone : (controlRun ⟨c, lastF, m⟩ (k + 1 + 1)).1
        = (control ⟨c, lastF, m⟩).1
            :: (controlRun (control ⟨c, lastF, m⟩).2 (k + 1)).1 := rfl
    rw [hone, hstep]
    rw [ih (c + 1) (by omega)]
    simp [List.replicate_succ]

/-- Counterexample to C3: for a two-frame motion that starts successfully,
the internal `control()` call made by `start()` is the only one that returns
`true`; both subsequent calls return `false`, so the number of `true` calls
before the first `false` is 1 (internal counting) or 0 (external counting),
never 2 = N. -/
theorem control_count_counterexample :
    start ⟨[[0], [0]], 1, 1⟩ 1 1 = (true, ⟨1, 1, 1⟩) ∧
    control (startInit ⟨[[0], [0]], 1, 1⟩ 1) = (true, ⟨1, 1, 1⟩) ∧
    (controlRun ⟨1, 1, 1⟩ 2).1 = [false, false] := by
  refine ⟨?_, ?_, ?_⟩
  · simp [start, startInit, control, MultiValueSeq.numFrames]
  · simp [startInit, control, MultiValueSeq.numFrames]
  · decide

/-- C3 (amended): for a motion with `N > 0` frames and a matching frame rate,
exactly `N - 1` calls to `control()` return `true` before the first call that
returns `false`, when the internal `control()` call made by `start()` is
counted; for `N = 0`, `start()` fails with the empty-motion condition. -/
theorem control_true_count :
    ∀ (qseqRef : MultiValueSeq) (bodyNumJoints : ℕ) (worldTimeStep : ℚ),
      (qseqRef.numFrames = 0 →
        (start qseqRef bodyNumJoints worldTimeStep).1 = false) ∧
      (0 < qseqRef.numFrames →
        ¬ (|qseqRef.frameRate - 1 / worldTimeStep| > 1 / 1000000) →
        start qseqRef bodyNumJoints worldTimeStep
            = (true, (control (startInit qseqRef bodyNumJoints)).2) ∧
        (control (startInit qseqRef bodyNumJoints)).1
            :: (controlRun (control (startInit qseqRef bodyNumJoints)).2
                  (qseqRef.numFrames - 1)).1
          = List.replicate (qseqRef.numFrames - 1) true ++ [false]) := by
  intro qseqRef nb wts
  constructor
  · intro h0
    unfold start
    rw [if_pos h0]
  · intro hpos hrate
    have h0 : qseqRef.numFrames ≠ 0 := Nat.pos_iff_ne_zero.mp hpos
    constructor
    · unfold start
      rw [if_neg h0, if_neg hrate]
    · have hlast : (startInit qseqRef nb).lastFrame = (qseqRef.numFrames : ℤ) - 1 :=
        startInit_lastFrame qseqRef nb h0
      rcases Nat.lt_or_ge qseqRef.numFrames 2 with hN | hN
      · -- N = 1: the internal control call already reports exhaustion
        have hN1 : qseqRef.numFrames = 1 := by omega
        have hstep : control (startInit qseqRef nb)
            = (false, startInit qseqRef nb) := by
          have hgt : (startInit qseqRef nb).currentFrame + 1
              > (startInit qseqRef nb).lastFrame := by
            rw [hlast, hN1]
            simp [startInit]
          unfold control
          rw [if_pos hgt]
          have : (startInit qseqRef nb).lastFrame = 0 := by rw [hlast, hN1]; rfl
          cases hs : startInit qseqRef nb
          · simp only [hs] at this ⊢
            have hc : (startInit qseqRef nb).currentFrame = 0 := by
              simp [startInit]
            simp only [hs] at hc
            simp_all
        rw [hstep, hN1]
        simp [controlRun]
      · -- N ≥ 2: the internal call advances to frame 1, then N-2 more successes
        have hle : ¬ ((startInit qseqRef nb).currentFrame + 1
            > (startInit qseqRef nb).lastFrame) := by
          have hc : (startInit qseqRef nb).currentFrame = 0 := by simp [startInit]
          rw [hc, hlast]
          omega
        have hm : startInit qseqRef nb
            = ⟨0, (qseqRef.numFrames : ℤ) - 1, min nb qseqRef.numParts⟩ := by
          simp only [startInit, ControllerState.mk.injEq, true_and, and_true]
          omega
        have hstep : control (startInit qseqRef nb)
            = (true, ⟨1, (qseqRef.numFrames : ℤ) - 1, min nb qseqRef.numParts⟩) := by
          rw [hm]
          unfold control
          rw [if_neg (by omega : ¬ ((0 : ℤ) + 1 > (qseqRef.numFrames : ℤ) - 1))]
          simp
        rw [hstep]
        simp only
        have hrun := controlRun_to_last ((qseqRef.numFrames : ℤ) - 1)
          (min nb qseqRef.numParts) (qseqRef.numFrames - 2) 1 (by omega)
        have hn : qseqRef.numFrames - 2 + 1 = qseqRef.numFrames - 1 := by omega
        rw [hn] at hrun
        rw [hrun]
        have hrep : List.replicate (qseqRef.numFrames - 1) true
            = true :: List.replicate (qseqRef.numFrames - 2) true := by
          rw [show qseqRef.numFrames - 1 = (qseqRef.numFrames - 2) + 1 from by omega,
            List.replicate_succ]
        rw [hrep]
        simp

/-- Witness for C3: a three-frame motion yields exactly two `true` results
followed by `false`. -/
theorem control_true_count_witness :
    start ⟨[[0], [0], [0]], 1, 1⟩ 1 1
        = (true, (control (startInit ⟨[[0], [0], [0]], 1, 1⟩ 1)).2) ∧
    (control (startInit ⟨[[0], [0], [0]], 1, 1⟩ 1)).1
        :: (controlRun (control (startInit ⟨[[0], [0], [0]], 1, 1⟩ 1)).2 2).1
      = List.replicate 2 true ++ [false] :=
  (control_true_count ⟨[[0], [0], [0]], 1, 1⟩ 1 1).2 (by decide) (by simp)

/-! ### C10 -/

lemma controlRun_frame_lower (n : ℕ) :
    ∀ s : ControllerState, 1 ≤ s.currentFrame → 1 ≤ s.lastFrame →
      1 ≤ ((controlRun s n).2).currentFrame ∧ 1 ≤ ((controlRun s n).2).lastFrame := by
  induction n with
  | zero => intro s h1 h2; exact ⟨h1, h2⟩
  | succ n ih =>
    intro s h1 h2
    have hstep : 1 ≤ ((control s).2).currentFrame ∧ 1 ≤ ((control s).2).lastFrame := by
      unfold control
      split
      · exact ⟨h2, h2⟩
      · refine ⟨?_, h2⟩
        show 1 ≤ s.currentFrame + 1
        omega
    have := ih (control s).2 hstep.1 hstep.2
    simpa [controlRun] using this

/-- C10: a successful `start()` has already invoked `control()` once: the
returned state is the post-`control` state; for a motion with at least two
frames the current frame is therefore `1` and never returns to `0` (so frame
0 is never the position target of `output()`); for a one-frame motion that
internal call already reports exhaustion, yet `start()` returns `true`. -/
theorem start_internal_control :
    ∀ (qseqRef : MultiValueSeq) (bodyNumJoints : ℕ) (worldTimeStep : ℚ)
      (s : ControllerState),
      start qseqRef bodyNumJoints worldTimeStep = (true, s) →
      s = (control (startInit qseqRef bodyNumJoints)).2 ∧
      (2 ≤ qseqRef.numFrames →
        s.currentFrame = 1 ∧ ∀ n, 1 ≤ ((controlRun s n).2).currentFrame) ∧
      (qseqRef.numFrames = 1 →
        (control (startInit qseqRef bodyNumJoints)).1 = false ∧ s.currentFrame = 0) := by
  intro qseqRef nb wts s h
  obtain ⟨h0, hs⟩ := start_success_state qseqRef nb wts s h
  refine ⟨hs, ?_, ?_⟩
  · intro hN
    have hm : startInit qseqRef nb
        = ⟨0, (qseqRef.numFrames : ℤ) - 1, min nb qseqRef.numParts⟩ := by
      simp only [startInit, ControllerState.mk.injEq, true_and, and_true]
      omega
    have hstep : control (startInit qseqRef nb)
        = (true, ⟨1, (qseqRef.numFrames : ℤ) - 1, min nb qseqRef.numParts⟩) := by
      rw [hm]
      unfold control
      rw [if_neg (by omega : ¬ ((0 : ℤ) + 1 > (qseqRef.numFrames : ℤ) - 1))]
      simp
    have hsv : s = ⟨1, (qseqRef.numFrames : ℤ) - 1, min nb qseqRef.numParts⟩ := by
      rw [hs, hstep]
    constructor
    · rw [hsv]
    · intro n
      refine ((controlRun_frame_lower n s (by rw [hsv]) ?_)).1
      rw [hsv]
      show (1 : ℤ) ≤ (qseqRef.numFrames : ℤ) - 1
      omega
  · intro hN1
    have hm : startInit qseqRef nb = ⟨0, 0, min nb qseqRef.numParts⟩ := by
      simp only [startInit, ControllerState.mk.injEq, true_and, and_true]
      rw [hN1]
      rfl
    have hstep : control (startInit qseqRef nb)
        = (false, ⟨0, 0, min nb qseqRef.numParts⟩) := by
      rw [hm]
      unfold control
      rw [if_pos (by omega : (0 : ℤ) + 1 > 0)]
    refine ⟨by rw [hstep], ?_⟩
    rw [hs, hstep]

/-- Witness for C10: a three-frame motion starts successfully at current
frame 1. -/
theorem start_internal_control_witness :
    ((⟨1, 2, 1⟩ : ControllerState)).currentFrame = 1 :=
  ((start_internal_control ⟨[[1], [2], [4]], 1, 1⟩ 1 1 ⟨1, 2, 1⟩
      (by simp [start, startInit, control, MultiValueSeq.numFrames])).2.1
    (by decide)).1

/-! ### C1 -/

lemma outputLoop_get? (qseqRef : MultiValueSeq) (s : ControllerState) :
    ∀ (l : List Joint) (k i : ℕ),
      (outputLoop qseqRef s k l).get? i
        = (l.get? i).map
            (fun j => if k + i < s.numJoints then jointTarget qseqRef s (k + i) else j) := by
  intro l
  induction l with
  | nil => intro k i; rfl
  | cons j rest ih =>
    intro k i
    cases i with
    | zero => simp [outputLoop]
    | succ i =>
      simp only [outputLoop, List.get?]
      rw [ih (k + 1) i, show k + 1 + i = k + (i + 1) from by omega]

lemma start_state_fields (qseqRef : MultiValueSeq) (nb : ℕ)
    (h0 : qseqRef.numFrames ≠ 0) :
    ((control (startInit qseqRef nb)).2).lastFrame = (qseqRef.numFrames : ℤ) - 1 ∧
    ((control (startInit qseqRef nb)).2).numJoints = min nb qseqRef.numParts := by
  have h1 := control_preserves (startInit qseqRef nb)
  exact ⟨h1.1.trans (startInit_lastFrame qseqRef nb h0), h1.2⟩

/-- C1: after a successful `start()` and any number of `control()` calls,
`output()` writes, for each joint index `i < min(bodyJointCount,
motionPartCount)`, position `q[f]`, velocity `(q[f+1]-q[f])/dt` and
acceleration `(q[f+1]-2q[f]+q[f-1])/dt²` into joint `i`, where `f` is the
current frame, `dt` the motion's per-frame time step, and the neighbor
indices are clamped to `0` and `lastFrame = numFrames - 1`. -/
theorem output_finite_difference :
    ∀ (qseqRef : MultiValueSeq) (bodyNumJoints : ℕ) (worldTimeStep : ℚ)
      (s₀ : ControllerState) (n : ℕ) (joints : List Joint) (i : ℕ),
      start qseqRef bodyNumJoints worldTimeStep = (true, s₀) →
      joints.length = bodyNumJoints →
      i < min bodyNumJoints qseqRef.numParts →
      (output qseqRef ((controlRun s₀ n).2) joints).get? i
          = some (jointTarget qseqRef ((controlRun s₀ n).2) i) ∧
      (jointTarget qseqRef ((controlRun s₀ n).2) i).q
          = qseqRef.frameVal ((controlRun s₀ n).2).currentFrame i ∧
      (jointTarget qseqRef ((controlRun s₀ n).2) i).dq
          = (qseqRef.frameVal
                (min (((controlRun s₀ n).2).currentFrame + 1)
                  ((qseqRef.numFrames : ℤ) - 1)) i
              - qseqRef.frameVal ((controlRun s₀ n).2).currentFrame i)
            / qseqRef.getTimeStep ∧
      (jointTarget qseqRef ((controlRun s₀ n).2) i).ddq
          = (qseqRef.frameVal
                (min (((controlRun s₀ n).2).currentFrame + 1)
                  ((qseqRef.numFrames : ℤ) - 1)) i
              - 2 * qseqRef.frameVal ((controlRun s₀ n).2).currentFrame i
              + qseqRef.frameVal (max (((controlRun s₀ n).2).currentFrame - 1) 0) i)
            / (qseqRef.getTimeStep * qseqRef.getTimeStep) := by
  intro qseqRef nb wts s₀ n joints i hstart hlen hi
  obtain ⟨h0, hs0⟩ := start_success_state qseqRef nb wts s₀ hstart
  have hfields := start_state_fields qseqRef nb h0
  have hlastR : ((controlRun s₀ n).2).lastFrame = (qseqRef.numFrames : ℤ) - 1 := by
    rw [(controlRun_preserves n s₀).1, hs0, hfields.1]
  have hjointsR : ((controlRun s₀ n).2).numJoints = min nb qseqRef.numParts := by
    rw [(controlRun_preserves n s₀).2, hs0, hfields.2]
  have hilen : i < joints.length := by
    rw [hlen]
    exact lt_of_lt_of_le hi (min_le_left _ _)
  refine ⟨?_, rfl, ?_, ?_⟩
  · rw [show output qseqRef ((controlRun s₀ n).2) joints
        = outputLoop qseqRef ((controlRun s₀ n).2) 0 joints from rfl,
      outputLoop_get? qseqRef ((controlRun s₀ n).2) joints 0 i,
      List.get?_eq_get hilen]
    simp only [Nat.zero_add, Option.map_some']
    rw [if_pos (by rw [hjointsR]; exact hi)]
  · simp [jointTarget, hlastR]
  · simp [jointTarget, hlastR]

/-- Witness for C1: for a three-frame motion with values 1, 2, 4 at 1 Hz,
the single driven joint receives the computed target after start. -/
theorem output_finite_difference_witness :
    (output ⟨[[1], [2], [4]], 1, 1⟩ ((controlRun ⟨1, 2, 1⟩ 0).2) [⟨0, 0, 0⟩]).get? 0
      = some (jointTarget ⟨[[1], [2], [4]], 1, 1⟩ ((controlRun ⟨1, 2, 1⟩ 0).2) 0) :=
  (output_finite_difference ⟨[[1], [2], [4]], 1, 1⟩ 1 1 ⟨1, 2, 1⟩ 0 [⟨0, 0, 0⟩] 0
    (by simp [start, startInit, control, MultiValueSeq.numFrames]) rfl (by decide)).1

/-! ### C4 -/

lemma forEachBody_get? (f : ℕ → SimBodyLegInfo → StepEvent) :
    ∀ (l : List SimBodyLegInfo) (k i : ℕ),
      (forEachBody f k l).get? i = (l.get? i).map (fun b => f (k + i) b) := by
  intro l
  induction l with
  | nil => intro k i; rfl
  | cons b rest ih =>
    intro k i
    cases i with
    | zero => simp [forEachBody]
    | succ i =>
      simp only [forEachBody, List.get?]
      rw [ih (k + 1) i, show k + 1 + i = k + (i + 1) from by omega]

lemma calcNextState_not_mem_forEachBody :
    ∀ (l : List SimBodyLegInfo) (k : ℕ),
      StepEvent.calcNextState
        ∉ forEachBody (fun i _ => StepEvent.calcForwardKinematics i true true) k l := by
  intro l
  induction l with
  | nil => intro k h; exact absurd h (List.not_mem_nil _)
  | cons b rest ih =>
    intro k h
    rcases List.mem_cons.mp h with h | h
    · exact absurd h (by simp)
    · exact ih (k + 1) h

/-- C4: `stepSimulation` first clears external forces on the constraint
solver; for a non-kinematics mode it then calls `calcNextState` and returns
`true`; in kinematics mode with kinematic walking disabled it instead
recomputes forward kinematics (with velocity and acceleration update) for
every active body, performing no dynamics integration. -/
theorem stepSimulation_dispatch :
    ∀ (mode : DynamicsMode) (walk : Bool) (bodies : List SimBodyLegInfo),
      ((stepSimulation mode walk bodies).2).head? = some StepEvent.clearExternalForces ∧
      (mode ≠ DynamicsMode.kinematics →
        stepSimulation mode walk bodies
          = (true, [StepEvent.clearExternalForces, StepEvent.calcNextState])) ∧
      (stepSimulation DynamicsMode.kinematics false bodies
          = (true, StepEvent.clearExternalForces ::
              forEachBody (fun i _ => StepEvent.calcForwardKinematics i true true)
                0 bodies) ∧
        (∀ i, i < bodies.length →
          (stepSimulation DynamicsMode.kinematics false bodies).2.get? (i + 1)
            = some (StepEvent.calcForwardKinematics i true true)) ∧
        StepEvent.calcNextState
          ∉ (stepSimulation DynamicsMode.kinematics false bodies).2) := by
  intro mode walk bodies
  have hkin : stepSimulation DynamicsMode.kinematics false bodies
      = (true, StepEvent.clearExternalForces ::
          forEachBody (fun i _ => StepEvent.calcForwardKinematics i true true)
            0 bodies) := by
    unfold stepSimulation
    rw [if_neg (by simp), if_pos (by simp)]
  refine ⟨?_, ?_, hkin, ?_, ?_⟩
  · unfold stepSimulation
    split
    · rfl
    · split
      · rfl
      · rfl
  · intro hmode
    unfold stepSimulation
    rw [if_pos hmode]
  · intro i hi
    rw [hkin]
    simp only [List.get?]
    rw [forEachBody_get? _ bodies 0 i, List.get?_eq_get hi]
    simp
  · rw [hkin]
    intro h
    rcases List.mem_cons.mp h with h | h
    · exact absurd h (by simp)
    · exact calcNextState_not_mem_forEachBody bodies 0 h

/-- Witness for C4: in forward-dynamics mode with one body the trace is
exactly clear-forces followed by `calcNextState`. -/
theorem stepSimulation_dispatch_witness :
    stepSimulation DynamicsMode.forwardDynamics false [⟨none⟩]
      = (true, [StepEvent.clearExternalForces, StepEvent.calcNextState]) :=
  (stepSimulation_dispatch DynamicsMode.forwardDynamics false [⟨none⟩]).2.1
    (by decide)

/-! ### C5 -/

lemma footLoop_spec :
    ∀ (l : List ℚ) (i : ℕ) (acc : ℕ × ℚ), acc.1 < i →
      ∃ j zj, footLoop i (some acc) l = some (j, zj) ∧
        ((j, zj) = acc ∨ (i ≤ j ∧ j < i + l.length ∧ l.getD (j - i) 0 = zj)) ∧
        zj ≤ acc.2 ∧
        (∀ k, k < l.length → zj ≤ l.getD k 0) ∧
        (acc.1 < j → zj < acc.2) ∧
        (∀ k, k < l.length → i + k < j → zj < l.getD k 0) := by
  intro l
  induction l with
  | nil =>
    intro i acc hacc
    refine ⟨acc.1, acc.2, by simp [footLoop], Or.inl rfl, le_refl _,
      fun k hk => absurd hk (by simp), fun h => absurd h (lt_irrefl _),
      fun k hk => absurd hk (by simp)⟩
  | cons z rest ih =>
    intro i acc hacc
    obtain ⟨a, za⟩ := acc
    by_cases hz : z < za
    · have hred : footLoop i (some (a, za)) (z :: rest)
          = footLoop (i + 1) (some (i, z)) rest := by
        simp [footLoop, hz]
      obtain ⟨j, zj, h1, h2, h3, h4, h5, h6⟩ := ih (i + 1) (i, z) (by omega)
      refine ⟨j, zj, hred.trans h1, ?_, ?_, ?_, ?_, ?_⟩
      · rcases h2 with h2 | ⟨hij, hlen, hval⟩
        · obtain ⟨rfl, rfl⟩ := Prod.mk.injEq .. ▸ (by
            exact ⟨congrArg Prod.fst h2, congrArg Prod.snd h2⟩ :
              j = i ∧ zj = z)
          exact Or.inr ⟨le_refl _, by simp, by simp⟩
        · refine Or.inr ⟨by omega, by simp only [List.length_cons]; omega, ?_⟩
          rw [show j - i = (j - (i + 1)) + 1 from by omega, List.getD_cons_succ]
          exact hval
      · exact h3.trans (le_of_lt hz)
      · intro k hk
        cases k with
        | zero => simpa using h3
        | succ k =>
          rw [List.getD_cons_succ]
          exact h4 k (by simpa using hk)
      · exact fun _ => lt_of_le_of_lt h3 hz
      · intro k hk hkj
        cases k with
        | zero => simpa using h5 (by omega)
        | succ k =>
          rw [List.getD_cons_succ]
          exact h6 k (by simpa using hk) (by omega)
    · have hred : footLoop i (some (a, za)) (z :: rest)
          = footLoop (i + 1) (some (a, za)) rest := by
        simp [footLoop, hz]
      obtain ⟨j, zj, h1, h2, h3, h4, h5, h6⟩ := ih (i + 1) (a, za) (by omega)
      refine ⟨j, zj, hred.trans h1, ?_, h3, ?_, h5, ?_⟩
      · rcases h2 with h2 | ⟨hij, hlen, hval⟩
        · exact Or.inl h2
        · refine Or.inr ⟨by omega, by simp only [List.length_cons]; omega, ?_⟩
          rw [show j - i = (j - (i + 1)) + 1 from by omega, List.getD_cons_succ]
          exact hval
      · intro k hk
        cases k with
        | zero => simpa using h3.trans (not_lt.mp hz)
        | succ k =>
          rw [List.getD_cons_succ]
          exact h4 k (by simpa using hk)
      · intro k hk hkj
        cases k with
        | zero =>
          have : zj < za := h5 (by omega)
          simpa using lt_of_lt_of_le this (not_lt.mp hz)
        | succ k =>
          rw [List.getD_cons_succ]
          exact h6 k (by simpa using hk) (by omega)

lemma supportFootIdx_spec :
    ∀ (feet : List ℚ), feet ≠ [] →
      ∃ j, supportFootIdx feet = some j ∧ j < feet.length ∧
        (∀ k, k < feet.length → feet.getD j 0 ≤ feet.getD k 0) ∧
        (∀ k, k < j → feet.getD j 0 < feet.getD k 0) := by
  intro feet hne
  match feet with
  | z :: rest =>
    have hred : footLoop 0 none (z :: rest) = footLoop 1 (some (0, z)) rest := by
      simp [footLoop]
    obtain ⟨j, zj, h1, h2, h3, h4, h5, h6⟩ := footLoop_spec rest 1 (0, z) (by omega)
    have hjlt : j < (z :: rest).length := by
      rcases h2 with h2 | ⟨hij, hlen, _⟩
      · have : j = 0 := congrArg Prod.fst h2
        simp [this]
      · simp only [List.length_cons]
        omega
    have hval : (z :: rest).getD j 0 = zj := by
      rcases h2 with h2 | ⟨hij, hlen, hv⟩
      · have hj0 : j = 0 := congrArg Prod.fst h2
        have hzz : zj = z := congrArg Prod.snd h2
        rw [hj0, List.getD_cons_zero, hzz]
      · rw [show j = (j - 1) + 1 from by omega, List.getD_cons_succ]
        simpa using hv
    refine ⟨j, ?_, hjlt, ?_, ?_⟩
    · unfold supportFootIdx
      rw [hred, h1]
      rfl
    · intro k hk
      rw [hval]
      cases k with
      | zero => simpa using h3
      | succ k =>
        rw [List.getD_cons_succ]
        exact h4 k (by simpa using hk)
    · intro k hk
      rw [hval]
      cases k with
      | zero => simpa using h5 (by omega)
      | succ k =>
        rw [List.getD_cons_succ]
        refine h6 k ?_ (by omega)
        have : k + 1 < (z :: rest).length := lt_trans hk hjlt
        simpa using this

/-- C5: in kinematics mode with kinematic walking enabled, a body with
invalid leg metadata gets a plain forward-kinematics recomputation, while a
body with feet gets a link traversal from the support foot: the foot of
minimal z-coordinate, the first in enumeration order on ties; in particular
with feet at heights 0.02 and 0.05 (in either order) the foot at 0.02 is the
support foot. -/
theorem stepSimulation_support_foot :
    ∀ (bodies : List SimBodyLegInfo) (i : ℕ) (b : SimBodyLegInfo),
      bodies.get? i = some b →
      ((b.legged = none →
          (stepSimulation DynamicsMode.kinematics true bodies).2.get? (i + 1)
            = some (StepEvent.calcForwardKinematics i true true)) ∧
       (∀ feet, b.legged = some feet → feet ≠ [] →
          ∃ j, supportFootIdx feet = some j ∧
            (stepSimulation DynamicsMode.kinematics true bodies).2.get? (i + 1)
              = some (StepEvent.traverseFromSupportFoot i (some j)) ∧
            j < feet.length ∧
            (∀ k, k < feet.length → feet.getD j 0 ≤ feet.getD k 0) ∧
            (∀ k, k < j → feet.getD j 0 < feet.getD k 0))) ∧
      (supportFootIdx [2/100, 5/100] = some 0 ∧
       supportFootIdx [5/100, 2/100] = some 1) := by
  intro bodies i b hb
  have hkin : stepSimulation DynamicsMode.kinematics true bodies
      = (true, StepEvent.clearExternalForces :: forEachBody bodyWalkEvent 0 bodies) := by
    unfold stepSimulation
    rw [if_neg (by simp), if_neg (by simp)]
  have hev : (stepSimulation DynamicsMode.kinematics true bodies).2.get? (i + 1)
      = some (bodyWalkEvent i b) := by
    rw [hkin]
    simp only [List.get?]
    rw [forEachBody_get? bodyWalkEvent bodies 0 i, hb]
    simp
  refine ⟨⟨?_, ?_⟩, ?_, ?_⟩
  · intro hnone
    rw [hev]
    unfold bodyWalkEvent
    rw [hnone]
  · intro feet hfeet hne
    obtain ⟨j, hj, hjlt, hmin, hfirst⟩ := supportFootIdx_spec feet hne
    refine ⟨j, hj, ?_, hjlt, hmin, hfirst⟩
    rw [hev]
    unfold bodyWalkEvent
    rw [hfeet]
    show some (StepEvent.traverseFromSupportFoot i (supportFootIdx feet))
        = some (StepEvent.traverseFromSupportFoot i (some j))
    rw [hj]
  · show supportFootIdx [2/100, 5/100] = some 0
    norm_num [supportFootIdx, footLoop]
  · show supportFootIdx [5/100, 2/100] = some 1
    norm_num [supportFootIdx, footLoop]

/-- Witness for C5: with two feet at heights 0.02 and 0.05 the support foot
index is 0 for the order `[0.02, 0.05]` and 1 for the order `[0.05, 0.02]`. -/
theorem stepSimulation_support_foot_witness :
    supportFootIdx [2/100, 5/100] = some 0 ∧
    supportFootIdx [5/100, 2/100] = some 1 :=
  (stepSimulation_support_foot [⟨some [2/100, 5/100]⟩] 0 ⟨some [2/100, 5/100]⟩
    rfl).2

/-! ### C6 -/

/-- C6: `addBody` zeroes the root link's velocity and acceleration state,
sets every link's joint torque, velocity and acceleration to zero (leaving
the number of links unchanged), clears the body's external forces, performs
the clear-forces and one forward-kinematics recomputation in that order, and
registers the body as high-gain exactly when the attached controller is a
`HighGainControllerItem` or the global dynamics mode is high-gain
dynamics. -/
theorem addBody_initialization :
    ∀ (mode : DynamicsMode) (ctrl : ControllerKind) (body : DyBodyState),
      (addBody mode ctrl body).1.root
          = ⟨Vec3.zero, Vec3.zero, Vec3.zero, Vec3.zero, Vec3.zero, Vec3.zero⟩ ∧
      (∀ l ∈ (addBody mode ctrl body).1.links, l.u = 0 ∧ l.dq = 0 ∧ l.ddq = 0) ∧
      (addBody mode ctrl body).1.links.length = body.links.length ∧
      (addBody mode ctrl body).1.externalForces = [] ∧
      (addBody mode ctrl body).2.2
          = [BodyEvent.clearExternalForces, BodyEvent.calcForwardKinematics true true] ∧
      ((addBody mode ctrl body).2.1 = true ↔
        (ctrl = ControllerKind.highGainController ∨ mode = DynamicsMode.hgDynamics)) := by
  intro mode ctrl body
  refine ⟨rfl, ?_, ?_, rfl, rfl, ?_⟩
  · intro l hl
    simp only [addBody, List.mem_map] at hl
    obtain ⟨l₀, _, rfl⟩ := hl
    exact ⟨rfl, rfl, rfl⟩
  · simp [addBody]
  · show ((mode == DynamicsMode.hgDynamics)
        || (ctrl == ControllerKind.highGainController)) = true ↔ _
    rw [Bool.or_eq_true, beq_iff_eq, beq_iff_eq]
    tauto

/-- Witness for C6: a body with one link, registered under forward dynamics
with a high-gain controller attached, has its link state zeroed and is put
into high-gain mode. -/
theorem addBody_initialization_witness :
    ((⟨1, 0, 0, 0⟩ : LinkState).u = 0 ∧ (⟨1, 0, 0, 0⟩ : LinkState).dq = 0 ∧
      (⟨1, 0, 0, 0⟩ : LinkState).ddq = 0) ∧
    ((addBody DynamicsMode.forwardDynamics ControllerKind.highGainController
        ⟨⟨⟨1, 1, 1⟩, ⟨1, 1, 1⟩, ⟨1, 1, 1⟩, ⟨1, 1, 1⟩, ⟨1, 1, 1⟩, ⟨1, 1, 1⟩⟩,
          [⟨1, 2, 3, 4⟩], [⟨1, 0, 0⟩]⟩).2.1 = true ↔
      (ControllerKind.highGainController = ControllerKind.highGainController ∨
        DynamicsMode.forwardDynamics = DynamicsMode.hgDynamics)) :=
  ⟨(addBody_initialization DynamicsMode.forwardDynamics
      ControllerKind.highGainController
      ⟨⟨⟨1, 1, 1⟩, ⟨1, 1, 1⟩, ⟨1, 1, 1⟩, ⟨1, 1, 1⟩, ⟨1, 1, 1⟩, ⟨1, 1, 1⟩⟩,
        [⟨1, 2, 3, 4⟩], [⟨1, 0, 0⟩]⟩).2.1 ⟨1, 0, 0, 0⟩ (by decide),
   (addBody_initialization DynamicsMode.forwardDynamics
      ControllerKind.highGainController
      ⟨⟨⟨1, 1, 1⟩, ⟨1, 1, 1⟩, ⟨1, 1, 1⟩, ⟨1, 1, 1⟩, ⟨1, 1, 1⟩, ⟨1, 1, 1⟩⟩,
        [⟨1, 2, 3, 4⟩], [⟨1, 0, 0⟩]⟩).2.2.2.2.2⟩

/-! ### C8 -/

/-- C8: `initializeSimulation` configures the world identically for every
state of the integration-mode selector, and the configured integration
method is always Euler. -/
theorem initializeSimulation_euler_only :
    ∀ (impl : ImplConfig) (m : IntegrationMode) (worldTimeStep : ℚ),
      initializeSimulation { impl with integrationMode := m } worldTimeStep
          = initializeSimulation impl worldTimeStep ∧
      (initializeSimulation impl worldTimeStep).integration
          = IntegrationMode.euler := by
  intro impl m wts
  exact ⟨rfl, rfl⟩

/-! ### C9 -/

lemma dynamicsMode_ofSymbol_selectedSymbol (m : DynamicsMode) :
    DynamicsMode.ofSymbol m.selectedSymbol = some m := by
  cases m <;> rfl

lemma integrationMode_ofSymbol_selectedSymbol (m : IntegrationMode) :
    IntegrationMode.ofSymbol m.selectedSymbol = some m := by
  cases m <;> rfl

/-- C9: restoring the record produced by `store` reproduces the effective
value of every stored configuration field regardless of the prior in-memory
state, and every field absent from a restored record retains its
pre-existing in-memory value. -/
theorem store_restore_roundtrip :
    ∀ (c c' : ImplConfig) (a : Archive),
      ((restore (store c) c').dynamicsMode = c.dynamicsMode ∧
       (restore (store c) c').integrationMode = c.integrationMode ∧
       (restore (store c) c').gravity = c.gravity ∧
       (restore (store c) c').staticFriction = c.staticFriction ∧
       (restore (store c) c').slipFriction = c.slipFriction ∧
       (restore (store c) c').contactCullingDistance = c.contactCullingDistance ∧
       (restore (store c) c').contactCullingDepth = c.contactCullingDepth ∧
       (restore (store c) c').errorCriterion = c.errorCriterion ∧
       (restore (store c) c').maxNumIterations = c.maxNumIterations ∧
       (restore (store c) c').contactCorrectionDepth = c.contactCorrectionDepth ∧
       (restore (store c) c').contactCorrectionVelocityRatio
          = c.contactCorrectionVelocityRatio ∧
       (restore (store c) c').isKinematicWalkingEnabled
          = c.isKinematicWalkingEnabled ∧
       (restore (store c) c').is2Dmode = c.is2Dmode ∧
       (restore (store c) c').penaltyKp = c.penaltyKp ∧
       (restore (store c) c').penaltyKv = c.penaltyKv) ∧
      ((a.dynamicsMode = none →
          (restore a c').dynamicsMode = c'.dynamicsMode) ∧
       (a.integrationMode = none →
          (restore a c').integrationMode = c'.integrationMode) ∧
       (a.gravity = none → (restore a c').gravity = c'.gravity) ∧
       (a.staticFriction = none →
          (restore a c').staticFriction = c'.staticFriction) ∧
       (a.slipFriction = none → (restore a c').slipFriction = c'.slipFriction) ∧
       (a.cullingThresh = none →
          (restore a c').contactCullingDistance = c'.contactCullingDistance) ∧
       (a.contactCullingDepth = none →
          (restore a c').contactCullingDepth = c'.contactCullingDepth) ∧
       (a.errorCriterion = none →
          (restore a c').errorCriterion = c'.errorCriterion) ∧
       (a.maxNumIterations = none →
          (restore a c').maxNumIterations = c'.maxNumIterations) ∧
       (a.contactCorrectionDepth = none →
          (restore a c').contactCorrectionDepth = c'.contactCorrectionDepth) ∧
       (a.contactCorrectionVelocityRatio = none →
          (restore a c').contactCorrectionVelocityRatio
            = c'.contactCorrectionVelocityRatio) ∧
       (a.kinematicWalking = none →
          (restore a c').isKinematicWalkingEnabled
            = c'.isKinematicWalkingEnabled) ∧
       (a.is2Dmode = none → (restore a c').is2Dmode = c'.is2Dmode) ∧
       (a.penaltyKp = none → (restore a c').penaltyKp = c'.penaltyKp) ∧
       (a.penaltyKv = none → (restore a c').penaltyKv = c'.penaltyKv)) := by
  intro c c' a
  constructor
  · refine ⟨?_, ?_, rfl, rfl, rfl, rfl, rfl, rfl, rfl, rfl, rfl, rfl, rfl, rfl, rfl⟩
    · show (DynamicsMode.ofSymbol c.dynamicsMode.selectedSymbol).getD c'.dynamicsMode
          = c.dynamicsMode
      rw [dynamicsMode_ofSymbol_selectedSymbol]
      rfl
    · show (IntegrationMode.ofSymbol c.integrationMode.selectedSymbol).getD
            c'.integrationMode = c.integrationMode
      rw [integrationMode_ofSymbol_selectedSymbol]
      rfl
  · refine ⟨?_, ?_, ?_, ?_, ?_, ?_, ?_, ?_, ?_, ?_, ?_, ?_, ?_, ?_, ?_⟩ <;>
      (intro h; simp [restore, h])

/-- Witness for C9: restoring an empty archive over a concrete configuration
retains it, and a stored record restores its dynamics mode over a different
prior state. -/
theorem store_restore_roundtrip_witness :
    (restore (store ⟨DynamicsMode.kinematics, IntegrationMode.rungeKutta,
        ⟨1, 2, 3⟩, 4, 5, "0.1", "0.2", "0.3", 6, "0.4", "0.5", 7, true, false,
        8, 9⟩)
      ⟨DynamicsMode.forwardDynamics, IntegrationMode.euler, ⟨0, 0, 0⟩, 0, 0,
        "a", "b", "c", 0, "d", "e", 0, false, true, 0, 0⟩).dynamicsMode
      = DynamicsMode.kinematics ∧
    (restore Archive.empty
      ⟨DynamicsMode.forwardDynamics, IntegrationMode.euler, ⟨0, 0, 0⟩, 0, 0,
        "a", "b", "c", 0, "d", "e", 0, false, true, 0, 0⟩).penaltyKp = 0 :=
  ⟨(store_restore_roundtrip
      ⟨DynamicsMode.kinematics, IntegrationMode.rungeKutta, ⟨1, 2, 3⟩, 4, 5,
        "0.1", "0.2", "0.3", 6, "0.4", "0.5", 7, true, false, 8, 9⟩
      ⟨DynamicsMode.forwardDynamics, IntegrationMode.euler, ⟨0, 0, 0⟩, 0, 0,
        "a", "b", "c", 0, "d", "e", 0, false, true, 0, 0⟩ Archive.empty).1.1,
   (store_restore_roundtrip
      ⟨DynamicsMode.kinematics, IntegrationMode.rungeKutta, ⟨1, 2, 3⟩, 4, 5,
        "0.1", "0.2", "0.3", 6, "0.4", "0.5", 7, true, false, 8, 9⟩
      ⟨DynamicsMode.forwardDynamics, IntegrationMode.euler, ⟨0, 0, 0⟩, 0, 0,
        "a", "b", "c", 0, "d", "e", 0, false, true, 0, 0⟩
      Archive.empty).2.2.2.2.2.2.2.2.2.2.2.2.2.2.1 rfl⟩

end PMSim
